import Mathlib

/-!
Verification of the `ejudge-users-management` command-line utility
(`cmd/ejudge-users/main.go`): a shallow embedding of its list parsers,
configuration loader, registration client (form building, response
handling) and driver loop, together with theorems settling the frozen
claims about the program.

Strings are modelled as Lean `String`s; Go byte slices holding text as
`String`; Go `int` as `Int` with the 64-bit range enforced where the
source checks it (`strconv.Atoi`). Fallible Go functions returning
`(T, error)` become `Except String T`, the `String` carrying the error
message built by the same `fmt.Errorf` format as the source.
-/

set_option maxRecDepth 100000

namespace EjudgeUsers

instance {ε α : Type} [DecidableEq ε] [DecidableEq α] : DecidableEq (Except ε α) :=
  fun x y =>
    match x, y with
    | Except.ok a, Except.ok b =>
      if h : a = b then isTrue (by rw [h]) else isFalse (by intro hh; cases hh; exact h rfl)
    | Except.error a, Except.error b =>
      if h : a = b then isTrue (by rw [h]) else isFalse (by intro hh; cases hh; exact h rfl)
    | Except.ok _, Except.error _ => isFalse (by intro hh; cases hh)
    | Except.error _, Except.ok _ => isFalse (by intro hh; cases hh)

/-! ### Go string primitives used by the source -/

/-- Models `unicode.IsSpace` (the white-space class used by
`strings.TrimSpace`): ASCII spaces plus the Latin-1 and Unicode
space code points. -/
def isGoSpace (c : Char) : Bool :=
  c = ' ' || c = '\t' || c = '\n' || c = '\x0B' || c = '\x0C' || c = '\r' ||
  c.toNat = 0x85 || c.toNat = 0xA0 ||
  c.toNat = 0x1680 || (0x2000 ≤ c.toNat && c.toNat ≤ 0x200A) ||
  c.toNat = 0x2028 || c.toNat = 0x2029 || c.toNat = 0x202F ||
  c.toNat = 0x205F || c.toNat = 0x3000

/-- Models `strings.TrimSpace`: drop leading and trailing white space. -/
def goTrimSpace (s : String) : String :=
  String.mk (((s.data.dropWhile isGoSpace).reverse.dropWhile isGoSpace).reverse)

/-- The separator predicate passed to `strings.FieldsFunc` in `splitList`:
a rune is a separator iff it is `';'` or `','`. -/
def isSepChar (c : Char) : Bool :=
  c = ';' || c = ','

/-- Models `strings.FieldsFunc` at the separator predicate `isSepChar`:
the maximal runs of non-separator characters, in order, empty runs not
produced. `cur` is the (reversed) run being accumulated. -/
def fieldsFuncAux (cur : List Char) : List Char → List (List Char)
  | [] => if cur.isEmpty then [] else [cur.reverse]
  | c :: cs =>
    if isSepChar c then
      if cur.isEmpty then fieldsFuncAux [] cs
      else cur.reverse :: fieldsFuncAux [] cs
    else fieldsFuncAux (c :: cur) cs

/-- `splitList` from the source: split on `';'`/`','`, trim each part,
drop the parts that trim to empty. -/
def splitList (raw : String) : List String :=
  ((fieldsFuncAux [] raw.data).map (fun cs => goTrimSpace (String.mk cs))).filter
    (fun s => !(s == ""))

/-- Finds the first `':'` in the remaining input; `acc` holds the
(reversed) characters already passed. Returns the parts before and
after that colon. -/
def breakAtColon (acc : List Char) : List Char → Option (List Char × List Char)
  | [] => none
  | c :: cs => if c = ':' then some (acc.reverse, cs) else breakAtColon (c :: acc) cs

/-- Models `strings.SplitN(item, ":", 2)`: one part when no colon occurs,
otherwise the part before the first colon and everything after it. -/
def splitN2Colon (s : String) : List String :=
  match breakAtColon [] s.data with
  | none => [s]
  | some (l, r) => [String.mk l, String.mk r]

def isDigitChar (c : Char) : Bool := 48 ≤ c.toNat && c.toNat ≤ 57

def digitsToNat (ds : List Char) : Nat :=
  ds.foldl (fun acc c => acc * 10 + (c.toNat - '0'.toNat)) 0

def hexDigit (n : Nat) : Char :=
  if n < 10 then Char.ofNat ('0'.toNat + n)
  else Char.ofNat ('a'.toNat + (n - 10))

def hexByteStr (n : Nat) : String :=
  String.mk [hexDigit (n / 16 % 16), hexDigit (n % 16)]

def hex4Str (n : Nat) : String :=
  String.mk [hexDigit (n / 4096 % 16), hexDigit (n / 256 % 16),
             hexDigit (n / 16 % 16), hexDigit (n % 16)]

/-- Models Go's `%q` escaping (`strconv.Quote`) for one character:
exact for ASCII; non-ASCII characters are rendered with numeric escapes
(Go prints printable non-ASCII runes verbatim, a difference immaterial
to every input evaluated here). -/
def goQuoteChar (c : Char) : String :=
  if c = '"' then "\\\""
  else if c = '\\' then "\\\\"
  else if c = '\x07' then "\\a"
  else if c = '\x08' then "\\b"
  else if c = '\x0C' then "\\f"
  else if c = '\n' then "\\n"
  else if c = '\r' then "\\r"
  else if c = '\t' then "\\t"
  else if c = '\x0B' then "\\v"
  else if 0x20 ≤ c.toNat && c.toNat < 0x7F then String.mk [c]
  else if c.toNat < 0x100 then "\\x" ++ hexByteStr c.toNat
  else "\\u" ++ hex4Str c.toNat

/-- Models `%q` in `fmt.Errorf`: the string between double quotes with
Go escaping. -/
def goQuote (s : String) : String :=
  "\"" ++ String.join (s.data.map goQuoteChar) ++ "\""

/-- Models `strconv.Atoi` (= `ParseInt(s, 10, 0)` on a 64-bit platform):
optional sign, one or more ASCII digits, value within `int64` range;
the error messages follow `strconv`'s `NumError` formatting. -/
def atoiE (s : String) : Except String Int :=
  let p : Bool × List Char :=
    match s.data with
    | '-' :: r => (true, r)
    | '+' :: r => (false, r)
    | r => (false, r)
  if p.2.isEmpty || p.2.any (fun c => !isDigitChar c) then
    Except.error ("strconv.Atoi: parsing " ++ goQuote s ++ ": invalid syntax")
  else
    let n := digitsToNat p.2
    if p.1 then
      if n ≤ 2 ^ 63 then Except.ok (-(n : Int))
      else Except.error ("strconv.Atoi: parsing " ++ goQuote s ++ ": value out of range")
    else
      if n ≤ 2 ^ 63 - 1 then Except.ok (n : Int)
      else Except.error ("strconv.Atoi: parsing " ++ goQuote s ++ ": value out of range")

/-- Models `strconv.Itoa` for the `Int` embedding of Go `int`. -/
def goItoa (i : Int) : String := toString i

/-! ### Data model (`main.go` type declarations) -/

/-- `userSpec` from the source: `ID *int`, `Login string`, `Name string`;
the nil-able pointer becomes `Option Int`. -/
structure userSpec where
  ID : Option Int
  Login : String
  Name : String
deriving Repr, DecidableEq

/-- `replyError` from the source (the `error` object of a reply). -/
structure replyError where
  Message : String
  Num : Int
  Symbol : String
  LogID : String
deriving Repr, DecidableEq

/-- `changeRegistrationReply` from the source. -/
structure changeRegistrationReply where
  OK : Bool
  Result : Bool
  Error : Option replyError
  Action : String
deriving Repr, DecidableEq

/-- `config` from the source. -/
structure config where
  Token : String
deriving Repr, DecidableEq

def changeRegistrationPath : String := "/ej/api/v1/master/change-registration"

def actionRegister : String := "register"

def actionUnregister : String := "unregister"

/-! ### List parsing (`parseAction`, `parseUsers`, `parseContestIDs`) -/

/-- ASCII lower-casing, models `strings.ToLower` for the inputs in scope
(action names and media types are ASCII). -/
def goToLower (s : String) : String :=
  String.mk (s.data.map (fun c =>
    if 'A' ≤ c && c ≤ 'Z' then Char.ofNat (c.toNat + 32) else c))

/-- `parseAction` from the source. -/
def parseAction (raw : String) : Except String String :=
  let t := goToLower (goTrimSpace raw)
  if t = actionRegister then Except.ok actionRegister
  else if t = actionUnregister then Except.ok actionUnregister
  else Except.error ("unsupported action " ++ goQuote raw)

/-- The per-token body of the loop in `parseUsers`, processing the items
in order and stopping at the first invalid one, exactly as the Go loop
does. -/
def parseUsersLoop : List String → Except String (List userSpec)
  | [] => Except.ok []
  | item :: rest =>
    match splitN2Colon item with
    | [l, r] =>
      let idPart := goTrimSpace l
      let namePart := goTrimSpace r
      if idPart = "" then
        Except.error ("user identifier is empty in " ++ goQuote item)
      else if namePart = "" then
        Except.error ("user name is empty in " ++ goQuote item)
      else
        match parseUsersLoop rest with
        | Except.error e => Except.error e
        | Except.ok us =>
          Except.ok ({ ID := (atoiE idPart).toOption, Login := idPart, Name := namePart } :: us)
    | _ => Except.error ("invalid user specification " ++ goQuote item)

/-- `parseUsers` from the source. -/
def parseUsers (raw : String) : Except String (List userSpec) :=
  let items := splitList raw
  if items.isEmpty then Except.error ("user list is empty")
  else parseUsersLoop items

/-- The per-token body of the loop in `parseContestIDs`. -/
def parseContestIDsLoop : List String → Except String (List Int)
  | [] => Except.ok []
  | item :: rest =>
    match atoiE item with
    | Except.error e => Except.error ("invalid contest ID " ++ goQuote item ++ ": " ++ e)
    | Except.ok id =>
      match parseContestIDsLoop rest with
      | Except.error e => Except.error e
      | Except.ok ids => Except.ok (id :: ids)

/-- `parseContestIDs` from the source. -/
def parseContestIDs (raw : String) : Except String (List Int) :=
  let items := splitList raw
  if items.isEmpty then Except.error ("contest list is empty")
  else parseContestIDsLoop items

/-! ### A model of the `encoding/json` value grammar

`json.Unmarshal` / `json.Decoder` as used by the source: a total,
fuel-indexed recursive-descent parser producing a JSON value tree, and
decoding of that tree into the two struct types the source decodes into
(`changeRegistrationReply` with unknown fields ignored; `config` under
`DisallowUnknownFields`). Error messages follow `encoding/json`'s
formats for the unmarshalling type errors; scanner (syntax) error texts
are descriptive stand-ins, never containing input text. -/

inductive Jval where
  | null
  | jbool (b : Bool)
  | jnum (lit : String)
  | jstr (s : String)
  | jarr (elems : List Jval)
  | jobj (members : List (String × Jval))
deriving Repr

/-- The white space skipped by the `encoding/json` scanner. -/
def isJsonWs (c : Char) : Bool :=
  c = ' ' || c = '\t' || c = '\r' || c = '\n'

def skipJsonWs : List Char → List Char
  | [] => []
  | c :: cs => if isJsonWs c then skipJsonWs cs else c :: cs

def hexVal (c : Char) : Option Nat :=
  let n := c.toNat
  if 48 ≤ n && n ≤ 57 then some (n - 48)
  else if 97 ≤ n && n ≤ 102 then some (n - 87)
  else if 65 ≤ n && n ≤ 70 then some (n - 55)
  else none

def jsonUnescape (c : Char) : Option Char :=
  if c = '"' then some '"'
  else if c = '\\' then some '\\'
  else if c = '/' then some '/'
  else if c = 'b' then some '\x08'
  else if c = 'f' then some '\x0C'
  else if c = 'n' then some '\n'
  else if c = 'r' then some '\r'
  else if c = 't' then some '\t'
  else none

/-- The body of a JSON string after its opening quote; `acc` holds the
decoded characters in reverse. -/
def parseJsonStrAux (acc : List Char) : List Char → Except String (String × List Char)
  | [] => Except.error ("unexpected end of JSON string literal")
  | '"' :: r => Except.ok (String.mk acc.reverse, r)
  | '\\' :: r =>
    match r with
    | 'u' :: a :: b :: c :: d :: r2 =>
      match hexVal a, hexVal b, hexVal c, hexVal d with
      | some va, some vb, some vc, some vd =>
        parseJsonStrAux (Char.ofNat (((va * 16 + vb) * 16 + vc) * 16 + vd) :: acc) r2
      | _, _, _, _ => Except.error ("invalid unicode escape in JSON string literal")
    | e :: r2 =>
      match jsonUnescape e with
      | some ch => parseJsonStrAux (ch :: acc) r2
      | none => Except.error ("invalid escape in JSON string literal")
    | [] => Except.error ("unexpected end of JSON string literal")
  | c :: r => parseJsonStrAux (c :: acc) r

def takeDigits : List Char → List Char × List Char
  | [] => ([], [])
  | c :: cs =>
    if isDigitChar c then
      let t := takeDigits cs
      (c :: t.1, t.2)
    else ([], c :: cs)

/-- A JSON number literal (returned as its text; the tree keeps the
literal, conversion to `int` happens at unmarshalling, as in Go). -/
def parseJsonNum (cs : List Char) : Except String (String × List Char) :=
  let sp : List Char × List Char :=
    match cs with
    | '-' :: r => (['-'], r)
    | r => ([], r)
  match sp.2 with
  | [] => Except.error ("invalid number literal in JSON input")
  | c :: r =>
    if !isDigitChar c then Except.error ("invalid number literal in JSON input")
    else
      let ip : List Char × List Char :=
        if c = '0' then ([c], r)
        else
          let t := takeDigits r
          (c :: t.1, t.2)
      let fp : List Char × List Char :=
        match ip.2 with
        | '.' :: r2 =>
          (match takeDigits r2 with
           | ([], _) => ([], '.' :: r2)
           | (ds, r3) => ('.' :: ds, r3))
        | r2 => ([], r2)
      let ep : List Char × List Char :=
        match fp.2 with
        | 'e' :: r2 =>
          (match r2 with
           | '+' :: r3 =>
             (match takeDigits r3 with
              | ([], _) => ([], 'e' :: r2)
              | (ds, r4) => ('e' :: '+' :: ds, r4))
           | '-' :: r3 =>
             (match takeDigits r3 with
              | ([], _) => ([], 'e' :: r2)
              | (ds, r4) => ('e' :: '-' :: ds, r4))
           | r3 =>
             (match takeDigits r3 with
              | ([], _) => ([], 'e' :: r2)
              | (ds, r4) => ('e' :: ds, r4)))
        | 'E' :: r2 =>
          (match r2 with
           | '+' :: r3 =>
             (match takeDigits r3 with
              | ([], _) => ([], 'E' :: r2)
              | (ds, r4) => ('E' :: '+' :: ds, r4))
           | '-' :: r3 =>
             (match takeDigits r3 with
              | ([], _) => ([], 'E' :: r2)
              | (ds, r4) => ('E' :: '-' :: ds, r4))
           | r3 =>
             (match takeDigits r3 with
              | ([], _) => ([], 'E' :: r2)
              | (ds, r4) => ('E' :: ds, r4)))
        | r2 => ([], r2)
      Except.ok (String.mk (sp.1 ++ ip.1 ++ fp.1 ++ ep.1), ep.2)

/-- The parsing mode of `parseJsonCore`: a single value, the elements of
a non-empty array, or the members of a non-empty object (`acc` holds
what is already parsed). -/
inductive JMode where
  | value
  | arrItems (acc : List Jval)
  | objItems (acc : List (String × Jval))

/-- The recursive core of the JSON parser, structural on a fuel counter
(two fuel units per input character always suffice, see `jsonParse1`). -/
def parseJsonCore : Nat → JMode → List Char → Except String (Jval × List Char)
  | 0, _, _ => Except.error ("JSON input too deeply nested")
  | fuel + 1, JMode.value, cs =>
    match skipJsonWs cs with
    | 'n' :: 'u' :: 'l' :: 'l' :: r => Except.ok (Jval.null, r)
    | 't' :: 'r' :: 'u' :: 'e' :: r => Except.ok (Jval.jbool true, r)
    | 'f' :: 'a' :: 'l' :: 's' :: 'e' :: r => Except.ok (Jval.jbool false, r)
    | '"' :: r =>
      (match parseJsonStrAux [] r with
       | Except.ok (s, r2) => Except.ok (Jval.jstr s, r2)
       | Except.error e => Except.error e)
    | '[' :: r =>
      (match skipJsonWs r with
       | ']' :: r2 => Except.ok (Jval.jarr [], r2)
       | cs2 => parseJsonCore fuel (JMode.arrItems []) cs2)
    | '{' :: r =>
      (match skipJsonWs r with
       | '}' :: r2 => Except.ok (Jval.jobj [], r2)
       | cs2 => parseJsonCore fuel (JMode.objItems []) cs2)
    | c :: rest =>
      if c = '-' || isDigitChar c then
        (match parseJsonNum (c :: rest) with
         | Except.ok (lit, r2) => Except.ok (Jval.jnum lit, r2)
         | Except.error e => Except.error e)
      else Except.error ("invalid character looking for beginning of JSON value")
    | [] => Except.error ("unexpected end of JSON input")
  | fuel + 1, JMode.arrItems acc, cs =>
    match parseJsonCore fuel JMode.value cs with
    | Except.error e => Except.error e
    | Except.ok (v, r) =>
      match skipJsonWs r with
      | ',' :: r2 => parseJsonCore fuel (JMode.arrItems (acc ++ [v])) r2
      | ']' :: r2 => Except.ok (Jval.jarr (acc ++ [v]), r2)
      | _ => Except.error ("invalid character after JSON array element")
  | fuel + 1, JMode.objItems acc, cs =>
    match skipJsonWs cs with
    | '"' :: r =>
      (match parseJsonStrAux [] r with
       | Except.error e => Except.error e
       | Except.ok (key, r1) =>
         match skipJsonWs r1 with
         | ':' :: r2 =>
           (match parseJsonCore fuel JMode.value r2 with
            | Except.error e => Except.error e
            | Except.ok (v, r3) =>
              match skipJsonWs r3 with
              | ',' :: r4 => parseJsonCore fuel (JMode.objItems (acc ++ [(key, v)])) r4
              | '}' :: r4 => Except.ok (Jval.jobj (acc ++ [(key, v)]), r4)
              | _ => Except.error ("invalid character after JSON object member"))
         | _ => Except.error ("invalid character after JSON object key"))
    | _ => Except.error ("invalid character looking for JSON object key")

/-- Parse one JSON value off the front of `s` (the operation a single
`json.Decoder.Decode` performs on the stream); returns the value and
the unconsumed remainder. -/
def jsonParse1 (s : String) : Except String (Jval × String) :=
  match parseJsonCore (2 * s.data.length + 4) JMode.value s.data with
  | Except.error e => Except.error e
  | Except.ok (v, rest) => Except.ok (v, String.mk rest)

def jvalKindName : Jval → String
  | Jval.null => "null"
  | Jval.jbool _ => "bool"
  | Jval.jnum _ => "number"
  | Jval.jstr _ => "string"
  | Jval.jarr _ => "array"
  | Jval.jobj _ => "object"

/-- `encoding/json`'s `UnmarshalTypeError` message for a struct field. -/
def typeErrMsg (v : Jval) (path ty : String) : String :=
  "json: cannot unmarshal " ++ jvalKindName v ++ " into Go struct field " ++
    path ++ " of type " ++ ty

/-- `strings.EqualFold` for the ASCII field names in play (the
case-insensitive key match `encoding/json` falls back to). -/
def eqFold (a b : String) : Bool :=
  goToLower a == goToLower b

/-- Converts a JSON number literal to a Go `int` the way `encoding/json`
does (`strconv.ParseInt` on the literal: sign and digits only). -/
def jsonLitToInt (lit : String) : Option Int :=
  (atoiE lit).toOption

/-- Decoding of a JSON object's members into `replyError` (unknown
fields ignored, as the source does not set `DisallowUnknownFields` for
replies). -/
def replyErrorFieldsLoop (acc : replyError) : List (String × Jval) → Except String replyError
  | [] => Except.ok acc
  | (k, v) :: rest =>
    if eqFold k ("message") then
      match v with
      | Jval.jstr s => replyErrorFieldsLoop { acc with Message := s } rest
      | Jval.null => replyErrorFieldsLoop acc rest
      | _ => Except.error (typeErrMsg v ("changeRegistrationReply.error.message") ("string"))
    else if eqFold k ("num") then
      match v with
      | Jval.jnum lit =>
        (match jsonLitToInt lit with
         | some n => replyErrorFieldsLoop { acc with Num := n } rest
         | none => Except.error (typeErrMsg v ("changeRegistrationReply.error.num") ("int")))
      | Jval.null => replyErrorFieldsLoop acc rest
      | _ => Except.error (typeErrMsg v ("changeRegistrationReply.error.num") ("int"))
    else if eqFold k ("symbol") then
      match v with
      | Jval.jstr s => replyErrorFieldsLoop { acc with Symbol := s } rest
      | Jval.null => replyErrorFieldsLoop acc rest
      | _ => Except.error (typeErrMsg v ("changeRegistrationReply.error.symbol") ("string"))
    else if eqFold k ("log_id") then
      match v with
      | Jval.jstr s => replyErrorFieldsLoop { acc with LogID := s } rest
      | Jval.null => replyErrorFieldsLoop acc rest
      | _ => Except.error (typeErrMsg v ("changeRegistrationReply.error.log_id") ("string"))
    else replyErrorFieldsLoop acc rest

/-- Decoding of a JSON object's members into `changeRegistrationReply`
(unknown fields ignored, `null` leaves a field at its zero value). -/
def replyFieldsLoop (acc : changeRegistrationReply) :
    List (String × Jval) → Except String changeRegistrationReply
  | [] => Except.ok acc
  | (k, v) :: rest =>
    if eqFold k ("ok") then
      match v with
      | Jval.jbool b => replyFieldsLoop { acc with OK := b } rest
      | Jval.null => replyFieldsLoop acc rest
      | _ => Except.error (typeErrMsg v ("changeRegistrationReply.ok") ("bool"))
    else if eqFold k ("result") then
      match v with
      | Jval.jbool b => replyFieldsLoop { acc with Result := b } rest
      | Jval.null => replyFieldsLoop acc rest
      | _ => Except.error (typeErrMsg v ("changeRegistrationReply.result") ("bool"))
    else if eqFold k ("error") then
      match v with
      | Jval.null => replyFieldsLoop acc rest
      | Jval.jobj efields =>
        (match replyErrorFieldsLoop { Message := "", Num := 0, Symbol := "", LogID := "" } efields with
         | Except.error e => Except.error e
         | Except.ok re => replyFieldsLoop { acc with Error := some re } rest)
      | _ => Except.error (typeErrMsg v ("changeRegistrationReply.error") ("*main.replyError"))
    else if eqFold k ("action") then
      match v with
      | Jval.jstr s => replyFieldsLoop { acc with Action := s } rest
      | Jval.null => replyFieldsLoop acc rest
      | _ => Except.error (typeErrMsg v ("changeRegistrationReply.action") ("string"))
    else replyFieldsLoop acc rest

def unmarshalReplyVal (v : Jval) : Except String changeRegistrationReply :=
  match v with
  | Jval.null => Except.ok { OK := false, Result := false, Error := none, Action := "" }
  | Jval.jobj fields =>
    replyFieldsLoop { OK := false, Result := false, Error := none, Action := "" } fields
  | _ =>
    Except.error ("json: cannot unmarshal " ++ jvalKindName v ++
      " into Go value of type main.changeRegistrationReply")

/-- `json.Unmarshal(body, &reply)`: exactly one JSON value, possibly
surrounded by white space, decoded into the reply record. -/
def unmarshalReply (body : String) : Except String changeRegistrationReply :=
  match jsonParse1 body with
  | Except.error e => Except.error e
  | Except.ok (v, rest) =>
    if (skipJsonWs rest.data).isEmpty then unmarshalReplyVal v
    else Except.error ("invalid character after top-level JSON value")

/-! ### Content-type handling (`isJSONContentType`) -/

/-- The token characters `mime` accepts in a media type. -/
def isMediaTokenChar (c : Char) : Bool :=
  c.isAlphanum || c = '!' || c = '#' || c = '$' || c = '%' || c = '&' ||
  c.toNat = 0x27 || c = '*' || c = '+' || c = '-' || c = '.' || c = '^' ||
  c.toNat = 0x60 || c = '_' || c = '|' || c = '~'

/-- The media-type component of `mime.ParseMediaType`: the part before
`';'`, trimmed and lower-cased, validated as `token` or `token/token`
(`none` models the error return; parameter validation after `';'` is
not modelled, no claim depends on it). -/
def goParseMediaType (v : String) : Option String :=
  let mt := goToLower (goTrimSpace (String.mk (v.data.takeWhile (fun c => !(c = ';')))))
  let cs := mt.data
  let t1 := cs.takeWhile (fun c => !(c = '/'))
  let rest := cs.dropWhile (fun c => !(c = '/'))
  if t1.isEmpty || !t1.all isMediaTokenChar then none
  else
    match rest with
    | [] => some mt
    | '/' :: t2 => if t2.isEmpty || !t2.all isMediaTokenChar then none else some mt
    | _ => none

/-- `isJSONContentType` from the source. -/
def isJSONContentType (contentType : String) : Bool :=
  match goParseMediaType contentType with
  | none => false
  | some mediaType =>
    mediaType = "application/json" || mediaType = "text/json" ||
      mediaType = "application/problem+json"

/-! ### The registration client (`changeRegistration`) -/

/-- The reply classification at the end of `changeRegistration`
(lines 276–283): success exactly when `OK` and `Result` both hold,
otherwise the error built from the reply's `error` object when present,
else the generic message. `none` models the `nil` (success) return. -/
def classifyReply (reply : changeRegistrationReply) : Option String :=
  if !reply.OK || !reply.Result then
    some
      (match reply.Error with
       | some e =>
         "server error: " ++ e.Message ++ " (code " ++ goItoa e.Num ++
           ", symbol " ++ e.Symbol ++ ", log " ++ e.LogID ++ ")"
       | none => "registration change was not acknowledged")
  else none

/-- The response-handling tail of `changeRegistration` (lines 257–283):
status check, content-type check with its 200-character preview,
`json.Unmarshal`, and reply classification. `none` models the `nil`
(success) return; `some` carries the error message. Body lengths are
measured in characters (Go measures bytes; identical on the ASCII
bodies evaluated here). -/
def changeRegistrationHandleResponse (statusCode : Nat) (status : String)
    (contentType : String) (body : String) : Option String :=
  if statusCode < 200 ∨ 300 ≤ statusCode then
    some ("unexpected status " ++ status ++ ": " ++ body)
  else if contentType ≠ "" ∧ isJSONContentType contentType = false then
    let preview := if 200 < body.length then body.take 200 ++ "..." else body
    some ("unexpected response content type " ++ goQuote contentType ++
      " (status " ++ status ++ "): " ++ preview)
  else
    match unmarshalReply body with
    | Except.error e => some ("decoding response: " ++ e)
    | Except.ok reply => classifyReply reply

/-- A `url.Values` form, modelled as the map it is: a key is bound to
its single value or absent. -/
def formMap : Type := String → Option String

/-- The empty `url.Values{}`. -/
def emptyForm : formMap := fun _ => none

/-- `url.Values.Set`: the key is bound to exactly this value. -/
def formSet (form : formMap) (k v : String) : formMap :=
  fun k2 => if k = k2 then some v else form k2

/-- Lookup in the form, `url.Values.Get`-style (`none` = field absent). -/
def formGet (form : formMap) (k : String) : Option String :=
  form k

/-- The form-building head of `changeRegistration` (lines 211–231):
`other_user_id` when `ID` is present, `other_user_login` when `Login`
is non-empty, always `contest_id`, then the action-specific fields; an
unrecognized action is the error of the `default` branch. -/
def changeRegistrationForm (contestID : Int) (user : userSpec) (action : String) :
    Except String formMap :=
  let form0 : formMap := emptyForm
  let form1 :=
    match user.ID with
    | some id => formSet form0 ("other_user_id") (goItoa id)
    | none => form0
  let form2 :=
    if user.Login ≠ "" then formSet form1 ("other_user_login") user.Login else form1
  let form3 := formSet form2 ("contest_id") (goItoa contestID)
  if action = actionRegister then
    Except.ok (formSet (formSet (formSet (formSet form3 ("op") ("upsert"))
      ("status") ("ok")) ("name") user.Name) ("ignore") ("true"))
  else if action = actionUnregister then
    Except.ok (formSet (formSet form3 ("op") ("delete")) ("ignore") ("true"))
  else Except.error ("unsupported action " ++ goQuote action)

/-! ### Driver loop and `main` glue -/

/-- `userIdentifier` from the source. -/
def userIdentifier (u : userSpec) : String :=
  match u.ID with
  | some id =>
    if u.Login ≠ "" then "login=" ++ u.Login ++ " (id=" ++ goItoa id ++ ")"
    else "id=" ++ goItoa id
  | none =>
    if u.Login ≠ "" then "login=" ++ u.Login else "<unknown>"

/-- `actionVerb` from the source. -/
def actionVerb (action : String) : String :=
  if action = actionRegister then "Registered"
  else if action = actionUnregister then "Unregistered"
  else action

/-- The inner (users) loop of `main`: each user is attempted;
`call c u = none` models a successful `changeRegistration`, `some e` a
failed one; returns the attempted pairs in order and the failure lines
appended in order. -/
def runUsersLoop (call : Int → userSpec → Option String) (contestID : Int) :
    List userSpec → List (Int × userSpec) × List String
  | [] => ([], [])
  | u :: us =>
    let rest := runUsersLoop call contestID us
    match call contestID u with
    | some e =>
      ((contestID, u) :: rest.1,
        ("contest " ++ goItoa contestID ++ ", user " ++ userIdentifier u ++ ": " ++ e) :: rest.2)
    | none => ((contestID, u) :: rest.1, rest.2)

/-- The outer (contests) loop of `main` (lines 118–127). -/
def runDriverLoop (call : Int → userSpec → Option String) :
    List Int → List userSpec → List (Int × userSpec) × List String
  | [], _ => ([], [])
  | c :: cs, users =>
    let this := runUsersLoop call c users
    let rest := runDriverLoop call cs users
    (this.1 ++ rest.1, this.2 ++ rest.2)

/-- The exit of `main` after the loop (lines 129–134): `os.Exit(1)`
when failures were collected, normal (zero) exit otherwise. -/
def driverExitCode (failures : List String) : Nat :=
  if failures.isEmpty then 0 else 1

/-! ### `loadConfig` -/

/-- Decoding of a JSON object's members into `config` under
`DisallowUnknownFields`: only `token` (a string) is accepted. -/
def configFieldsLoop (acc : config) : List (String × Jval) → Except String config
  | [] => Except.ok acc
  | (k, v) :: rest =>
    if eqFold k ("token") then
      match v with
      | Jval.jstr s => configFieldsLoop { Token := s } rest
      | Jval.null => configFieldsLoop acc rest
      | _ => Except.error (typeErrMsg v ("config.token") ("string"))
    else Except.error ("json: unknown field " ++ goQuote k)

def unmarshalConfigVal (v : Jval) : Except String config :=
  match v with
  | Jval.null => Except.ok { Token := "" }
  | Jval.jobj fields => configFieldsLoop { Token := "" } fields
  | _ =>
    Except.error ("json: cannot unmarshal " ++ jvalKindName v ++
      " into Go value of type main.config")

/-- The second `decoder.Decode(&struct{}{})` of `loadConfig`: under
`DisallowUnknownFields` only `null` or an empty object decode into the
empty struct. -/
def unmarshalEmptyStructVal (v : Jval) : Except String Unit :=
  match v with
  | Jval.null => Except.ok ()
  | Jval.jobj [] => Except.ok ()
  | Jval.jobj ((k, _) :: _) => Except.error ("json: unknown field " ++ goQuote k)
  | _ =>
    Except.error ("json: cannot unmarshal " ++ jvalKindName v ++
      " into Go value of type struct \x7b\x7d")

/-- The decoding part of `loadConfig` (lines 335–353), once the file's
content is in hand: first `Decode` (EOF means an empty file), the
`DisallowUnknownFields` schema check, then the second `Decode` that must
hit EOF or the stream held more than one value. -/
def decodeConfigContent (path content : String) : Except String config :=
  if (skipJsonWs content.data).isEmpty then Except.error ("config file is empty")
  else
    match jsonParse1 content with
    | Except.error e => Except.error ("decoding config " ++ goQuote path ++ ": " ++ e)
    | Except.ok (v, rest) =>
      match unmarshalConfigVal v with
      | Except.error e => Except.error ("decoding config " ++ goQuote path ++ ": " ++ e)
      | Except.ok cfg =>
        if (skipJsonWs rest.data).isEmpty then Except.ok cfg
        else
          match jsonParse1 rest with
          | Except.error e => Except.error ("decoding config " ++ goQuote path ++ ": " ++ e)
          | Except.ok (v2, _) =>
            match unmarshalEmptyStructVal v2 with
            | Except.ok _ =>
              Except.error ("config file " ++ goQuote path ++ " contains multiple JSON values")
            | Except.error e =>
              Except.error ("decoding config " ++ goQuote path ++ ": " ++ e)

/-- `loadConfig` from the source. The file system is an explicit map
from path to readable content (`none` = missing or unreadable, the
`os.Open` error path). -/
def loadConfig (path : String) (fs : String → Option String) : Except String config :=
  if path = "" then Except.ok { Token := "" }
  else
    match fs path with
    | none =>
      Except.error ("opening config file " ++ goQuote path ++
        ": open " ++ path ++ ": no such file or directory")
    | some content => decodeConfigContent path content

/-- `strings.TrimSuffix(s, "/")`: drops one trailing slash if present. -/
def trimSuffixSlash (s : String) : String :=
  match s.data.reverse with
  | '/' :: r => String.mk r.reverse
  | _ => s

/-- The outcome of one `main` run: the fatal pre-loop error if the run
stopped before the driver loop, the (contest, user) pairs for which a
request was attempted, and the process exit code. -/
structure mainOutcome where
  fatal : Option String
  attempted : List (Int × userSpec)
  exit : Nat
deriving Repr, DecidableEq

/-- The `main` pipeline (lines 54–135) over its flag values: flag
presence checks, the four parsers/loaders in source order, token and
base-URL resolution, then the driver loop. `call` abstracts one
`changeRegistration` HTTP exchange given the resolved action (the
transport itself is outside the embedding); an attempted pair in the
outcome is exactly one issued HTTP request. The `-insecure` transport
setup and logging are not claim-relevant and are not modelled. -/
def mainRun (usersArg contestsArg actionArg tokenArg configArg baseURLArg : String)
    (fs : String → Option String)
    (call : String → Int → userSpec → Option String) : mainOutcome :=
  if usersArg = "" then { fatal := some ("the -users flag is required"), attempted := [], exit := 1 }
  else if contestsArg = "" then
    { fatal := some ("the -contests flag is required"), attempted := [], exit := 1 }
  else
    match parseAction actionArg with
    | Except.error e => { fatal := some ("invalid action: " ++ e), attempted := [], exit := 1 }
    | Except.ok action =>
      match parseUsers usersArg with
      | Except.error e =>
        { fatal := some ("failed to parse users: " ++ e), attempted := [], exit := 1 }
      | Except.ok users =>
        match parseContestIDs contestsArg with
        | Except.error e =>
          { fatal := some ("failed to parse contests: " ++ e), attempted := [], exit := 1 }
        | Except.ok contests =>
          match loadConfig (goTrimSpace configArg) fs with
          | Except.error e =>
            { fatal := some ("failed to load config: " ++ e), attempted := [], exit := 1 }
          | Except.ok cfg =>
            let token :=
              if goTrimSpace tokenArg ≠ "" then goTrimSpace tokenArg else goTrimSpace cfg.Token
            if token = "" then
              { fatal := some ("no API token provided: specify it via -token flag or in the config file"),
                attempted := [], exit := 1 }
            else
              let baseURL := trimSuffixSlash baseURLArg
              if baseURL = "" then
                { fatal := some ("the base URL must not be empty"), attempted := [], exit := 1 }
              else
                let r := runDriverLoop (call action) contests users
                { fatal := none, attempted := r.1, exit := driverExitCode r.2 }

/-! ### Auxiliary notions used by the theorems -/

/-- Whether `pat` occurs at the start of `hay` (`strings.HasPrefix`). -/
def startsWithL (pat hay : List Char) : Bool :=
  match pat, hay with
  | [], _ => true
  | p :: ps, h :: hs => if p = h then startsWithL ps hs else false
  | _ :: _, [] => false

/-- Whether `pat` occurs anywhere in `hay` (`strings.Contains`). -/
def containsSubL (pat : List Char) : List Char → Bool
  | [] => pat.isEmpty
  | h :: hs => startsWithL pat (h :: hs) || containsSubL pat hs

/-- Substring containment on strings (`strings.Contains`). -/
def strContains (s pat : String) : Bool :=
  containsSubL pat.data s.data

/-- The number of occurrences of a character in a string. -/
def countCharOcc (c : Char) (s : String) : Nat :=
  (s.data.filter (fun x => x == c)).length

/-- The (contest, user) pairs of the cartesian product in the order the
driver loop visits them: contests outer, users inner. -/
def contestUserPairs : List Int → List userSpec → List (Int × userSpec)
  | [], _ => []
  | c :: cs, users => users.map (fun u => (c, u)) ++ contestUserPairs cs users

/-- The two sides of a user token around its first colon (the parts of
`strings.SplitN(item, ":", 2)` when a colon is present). -/
def colonSplit (s : String) : String × String :=
  match breakAtColon [] s.data with
  | none => (s, "")
  | some (l, r) => (String.mk l, String.mk r)

/-- A user token `parseUsers` accepts: it has a colon, and the parts on
each side of the first colon are non-empty after trimming. -/
def validUserToken (s : String) : Bool :=
  (breakAtColon [] s.data).isSome &&
    !(goTrimSpace (colonSplit s).1 == "") && !(goTrimSpace (colonSplit s).2 == "")

/-- The record `parseUsers` builds from an accepted token. -/
def userOfToken (s : String) : userSpec :=
  { ID := (atoiE (goTrimSpace (colonSplit s).1)).toOption,
    Login := goTrimSpace (colonSplit s).1,
    Name := goTrimSpace (colonSplit s).2 }

/-- The `strconv` error text for a token, as `%w`-wrapped by
`parseContestIDs` (empty for tokens that parse). -/
def atoiErrMsg (s : String) : String :=
  match atoiE s with
  | Except.error e => e
  | Except.ok _ => ""

/-- The integer values of all tokens, in order, when every one parses
(`none` when some token fails the `strconv.Atoi` model). -/
def atoiAll : List String → Option (List Int)
  | [] => some []
  | i :: rest =>
    match (atoiE i).toOption with
    | none => none
    | some id =>
      match atoiAll rest with
      | none => none
      | some ids => some (id :: ids)

/-- The first token that does not parse as an integer, if any. -/
def firstBadToken : List String → Option String
  | [] => none
  | i :: rest => if (atoiE i).isOk then firstBadToken rest else some i

/-- Whether a JSON value is a string or `null` (the values the `token`
field accepts). -/
def jvalIsStrOrNull : Jval → Bool
  | Jval.jstr _ => true
  | Jval.null => true
  | _ => false

/-- Whether a JSON value decodes into `config` under
`DisallowUnknownFields`: `null`, or an object all of whose members are
named `token` (up to ASCII case folding) with string-or-null values. -/
def configSchemaOkVal : Jval → Bool
  | Jval.null => true
  | Jval.jobj fields =>
    fields.all (fun kv => eqFold kv.1 ("token") && jvalIsStrOrNull kv.2)
  | _ => false

/-- The token a schema-conforming JSON value decodes to: the last string
bound to a `token` member (`""` when none). -/
def configTokenFold (t0 : String) (fields : List (String × Jval)) : String :=
  fields.foldl (fun acc kv =>
    match kv.2 with
    | Jval.jstr s => if eqFold kv.1 ("token") then s else acc
    | _ => acc) t0

def configTokenOfVal : Jval → String
  | Jval.jobj fields => configTokenFold "" fields
  | _ => ""

/-- The member names of the single top-level JSON object of `content`,
when `content` is exactly one JSON object plus white space. -/
def firstJsonObjKeys (content : String) : Option (List String) :=
  match jsonParse1 content with
  | Except.ok (Jval.jobj fields, rest) =>
    if (skipJsonWs rest.data).isEmpty then some (fields.map (fun kv => kv.1))
    else none
  | _ => none

/-! ### Lemmas about the driver loop -/

theorem runUsersLoop_fst (call : Int → userSpec → Option String) (c : Int) :
    ∀ users : List userSpec, (runUsersLoop call c users).1 = users.map (fun u => (c, u))
  | [] => rfl
  | u :: us => by
    have ih := runUsersLoop_fst call c us
    cases h : call c u <;> simp [runUsersLoop, h, ih]

theorem runUsersLoop_snd_nil_iff (call : Int → userSpec → Option String) (c : Int) :
    ∀ users : List userSpec,
      ((runUsersLoop call c users).2 = [] ↔ ∀ u ∈ users, call c u = none)
  | [] => by simp [runUsersLoop]
  | u :: us => by
    have ih := runUsersLoop_snd_nil_iff call c us
    cases h : call c u <;> simp [runUsersLoop, h, ih]

theorem runDriverLoop_fst (call : Int → userSpec → Option String)
    (users : List userSpec) :
    ∀ contests : List Int,
      (runDriverLoop call contests users).1 = contestUserPairs contests users
  | [] => rfl
  | c :: cs => by
    have ih := runDriverLoop_fst call users cs
    simp [runDriverLoop, contestUserPairs, ih, runUsersLoop_fst]

theorem runDriverLoop_snd_nil_iff (call : Int → userSpec → Option String)
    (users : List userSpec) :
    ∀ contests : List Int,
      ((runDriverLoop call contests users).2 = [] ↔
        ∀ c ∈ contests, ∀ u ∈ users, call c u = none)
  | [] => by simp [runDriverLoop]
  | c :: cs => by
    have ih := runDriverLoop_snd_nil_iff call users cs
    simp [runDriverLoop, List.append_eq_nil, ih, runUsersLoop_snd_nil_iff]

theorem driverExitCode_eq_zero_iff (failures : List String) :
    driverExitCode failures = 0 ↔ failures = [] := by
  cases failures <;> simp [driverExitCode]

/-! ### The claims -/

/-- Claim C3 (counterexample): the claim "for every non-2xx response the
error includes a body excerpt of no more than 200 characters, with a
trailing ellipsis marker appended when the body was truncated" is false
at a concrete input: for a 500 response whose body is 201 characters
long, the error message contains the entire 201-character body and no
ellipsis marker at all — nothing was truncated. -/
theorem claim_C3_counterexample :
    (changeRegistrationHandleResponse 500 ("500 Internal Server Error") ("text/plain")
        (String.mk (List.replicate 201 'a'))).isSome = true ∧
    strContains
      ((changeRegistrationHandleResponse 500 ("500 Internal Server Error") ("text/plain")
        (String.mk (List.replicate 201 'a'))).getD "")
      (String.mk (List.replicate 201 'a')) = true ∧
    strContains
      ((changeRegistrationHandleResponse 500 ("500 Internal Server Error") ("text/plain")
        (String.mk (List.replicate 201 'a'))).getD "") ("...") = false ∧
    200 < (String.mk (List.replicate 201 'a')).length := by
  decide

/-- Claim C3 (amended): for every HTTP response with a non-2xx status,
`changeRegistration` fails with an error that includes the status line
and the full response body, untruncated (the 200-character preview with
ellipsis applies only to the content-type error path of 2xx
responses). -/
theorem claim_C3_status_error (statusCode : Nat) (status contentType body : String)
    (h : statusCode < 200 ∨ 300 ≤ statusCode) :
    changeRegistrationHandleResponse statusCode status contentType body =
      some ("unexpected status " ++ status ++ ": " ++ body) := by
  unfold changeRegistrationHandleResponse
  rw [if_pos h]

/-- Witness for `claim_C3_status_error` at a concrete non-2xx response. -/
theorem claim_C3_status_error_witness :
    changeRegistrationHandleResponse 404 ("404 Not Found") ("text/html") ("nope") =
      some ("unexpected status 404 Not Found: nope") :=
  claim_C3_status_error 404 ("404 Not Found") ("text/html") ("nope") (Or.inr (by decide))

/-- Claim C7: `changeRegistration` treats a decoded reply as successful
exactly when both `OK` and `Result` are true; otherwise it fails with
the message built from the embedded error object's `Message`, `Num`,
`Symbol` and `LogID` when present, and the generic "not acknowledged"
message when absent; and on a 2xx JSON response this classification is
exactly what the response handling returns after decoding. -/
theorem claim_C7_reply_classification (reply : changeRegistrationReply) :
    (classifyReply reply = none ↔ reply.OK = true ∧ reply.Result = true) ∧
    (∀ e, reply.Error = some e → (reply.OK = false ∨ reply.Result = false) →
      classifyReply reply =
        some ("server error: " ++ e.Message ++ " (code " ++ goItoa e.Num ++
          ", symbol " ++ e.Symbol ++ ", log " ++ e.LogID ++ ")")) ∧
    (reply.Error = none → (reply.OK = false ∨ reply.Result = false) →
      classifyReply reply = some ("registration change was not acknowledged")) ∧
    (∀ status body, unmarshalReply body = Except.ok reply →
      changeRegistrationHandleResponse 200 status ("application/json") body =
        classifyReply reply) := by
  refine ⟨?_, ?_, ?_, ?_⟩
  · cases hOK : reply.OK <;> cases hR : reply.Result <;>
      simp [classifyReply, hOK, hR]
  · intro e hE hBad
    rcases hBad with hBad | hBad <;> simp [classifyReply, hBad, hE]
  · intro hE hBad
    rcases hBad with hBad | hBad <;> simp [classifyReply, hBad, hE]
  · intro status body h
    unfold changeRegistrationHandleResponse
    rw [if_neg (by omega), if_neg (by decide), h]

/-- Witness for `claim_C7_reply_classification` at a concrete reply with
an embedded error object. -/
theorem claim_C7_witness :
    classifyReply
      { OK := false, Result := false,
        Error := some { Message := "User is blocked", Num := 13,
                        Symbol := "USER_BLOCKED", LogID := "log-1" },
        Action := "" } =
      some ("server error: User is blocked (code 13, symbol USER_BLOCKED, log log-1)") :=
  (claim_C7_reply_classification _).2.1
    { Message := "User is blocked", Num := 13, Symbol := "USER_BLOCKED", LogID := "log-1" }
    rfl (Or.inl rfl)

/-- Claim C8: the driver loop attempts one call for every pair of the
contests × users product (contests outer, users inner) no matter which
individual calls fail, and the process exit code is zero exactly when
every call succeeded, non-zero exactly when at least one failed. -/
theorem claim_C8_driver_loop (call : Int → userSpec → Option String)
    (contests : List Int) (users : List userSpec) :
    (runDriverLoop call contests users).1 = contestUserPairs contests users ∧
    (driverExitCode (runDriverLoop call contests users).2 = 0 ↔
      ∀ c ∈ contests, ∀ u ∈ users, call c u = none) ∧
    (driverExitCode (runDriverLoop call contests users).2 ≠ 0 ↔
      ∃ c ∈ contests, ∃ u ∈ users, call c u ≠ none) := by
  refine ⟨runDriverLoop_fst call users contests, ?_, ?_⟩
  · rw [driverExitCode_eq_zero_iff, runDriverLoop_snd_nil_iff]
  · rw [Ne, driverExitCode_eq_zero_iff, runDriverLoop_snd_nil_iff]
    push_neg
    simp

/-- Witness for `claim_C8_driver_loop` at a concrete run where the call
for contest 2 fails: both pairs are still attempted and the exit code is
non-zero. -/
theorem claim_C8_witness :
    (runDriverLoop (fun c _ => if c = 2 then some ("boom") else none) [1, 2]
        [{ ID := none, Login := "u", Name := "U" }]).1 =
      contestUserPairs [1, 2] [{ ID := none, Login := "u", Name := "U" }] ∧
    driverExitCode
      (runDriverLoop (fun c _ => if c = 2 then some ("boom") else none) [1, 2]
        [{ ID := none, Login := "u", Name := "U" }]).2 ≠ 0 :=
  ⟨(claim_C8_driver_loop (fun c _ => if c = 2 then some ("boom") else none) [1, 2]
      [{ ID := none, Login := "u", Name := "U" }]).1,
   (claim_C8_driver_loop (fun c _ => if c = 2 then some ("boom") else none) [1, 2]
      [{ ID := none, Login := "u", Name := "U" }]).2.2.mpr
     ⟨2, by decide, { ID := none, Login := "u", Name := "U" }, by decide, by decide⟩⟩

/-- Claim C1 (evaluation of the code at the failing input): the response
decoding of `changeRegistration` as implemented rejects a 2xx `text/html`
response even though its body contains a balanced embedded JSON object:
it returns the "unexpected response content type" error. The second and
third conjuncts document the divergence: the body does contain the
balanced fragment, and that fragment alone would decode to
`OK=true, Result=true, Action="upsert"` — the behavior the claim (and
the repository's own test
`TestDecodeChangeRegistrationResponseHTMLWithEmbeddedJSON`) expects. -/
theorem claim_C1_code_eval :
    changeRegistrationHandleResponse 200 ("200 OK") ("text/html; charset=utf-8")
        ("<!DOCTYPE html><html><body><style>body\x7bmargin:0;\x7d</style><pre>\x7b\"ok\":true,\"result\":true,\"action\":\"upsert\"\x7d</pre></body></html>") =
      some ("unexpected response content type \"text/html; charset=utf-8\" (status 200 OK): <!DOCTYPE html><html><body><style>body\x7bmargin:0;\x7d</style><pre>\x7b\"ok\":true,\"result\":true,\"action\":\"upsert\"\x7d</pre></body></html>") ∧
    strContains
      ("<!DOCTYPE html><html><body><style>body\x7bmargin:0;\x7d</style><pre>\x7b\"ok\":true,\"result\":true,\"action\":\"upsert\"\x7d</pre></body></html>")
      ("\x7b\"ok\":true,\"result\":true,\"action\":\"upsert\"\x7d") = true ∧
    unmarshalReply ("\x7b\"ok\":true,\"result\":true,\"action\":\"upsert\"\x7d") =
      Except.ok { OK := true, Result := true, Error := none, Action := "upsert" } := by
  refine ⟨by decide, by decide, by decide⟩

/-- Claim C2 (evaluation of the code at the failing input): on a 2xx
JSON response with body `{"ok":false,"result":"contest is closed"}` the
code fails while unmarshalling (the `result` field of
`changeRegistrationReply` is a `bool`, the value a string), so the
returned failure is the "decoding response" error, whose message does
not contain "contest is closed" — against the claim (and the
repository's own test
`TestChangeRegistrationIncludesResultMessageWhenErrorMissing`). -/
theorem claim_C2_code_eval :
    (changeRegistrationHandleResponse 200 ("200 OK") ("application/json")
        ("\x7b\"ok\": false, \"result\": \"contest is closed\"\x7d")).isSome = true ∧
    strContains
      ((changeRegistrationHandleResponse 200 ("200 OK") ("application/json")
        ("\x7b\"ok\": false, \"result\": \"contest is closed\"\x7d")).getD "")
      ("contest is closed") = false ∧
    strContains
      ((changeRegistrationHandleResponse 200 ("200 OK") ("application/json")
        ("\x7b\"ok\": false, \"result\": \"contest is closed\"\x7d")).getD "")
      ("decoding response") = true := by
  refine ⟨by decide, by decide, by decide⟩

/-! ### Lemmas about `parseUsers` and `parseContestIDs` -/

@[simp] theorem exceptIsOk_ok {ε α : Type} (a : α) :
    (Except.ok a : Except ε α).isOk = true := rfl

@[simp] theorem exceptIsOk_error {ε α : Type} (e : ε) :
    (Except.error e : Except ε α).isOk = false := rfl

theorem parseUsers_eq (raw : String) (hne : (splitList raw).isEmpty = false) :
    parseUsers raw = parseUsersLoop (splitList raw) := by
  show (if (splitList raw).isEmpty = true then Except.error ("user list is empty")
      else parseUsersLoop (splitList raw)) = parseUsersLoop (splitList raw)
  rw [hne]
  simp

theorem parseUsers_empty (raw : String) (hempty : splitList raw = []) :
    parseUsers raw = Except.error ("user list is empty") := by
  show (if (splitList raw).isEmpty = true then Except.error ("user list is empty")
      else parseUsersLoop (splitList raw)) = Except.error ("user list is empty")
  rw [hempty]
  rfl

theorem parseUsersLoop_all_valid : ∀ items : List String,
    (∀ item ∈ items, validUserToken item = true) →
    parseUsersLoop items = Except.ok (items.map userOfToken)
  | [], _ => rfl
  | item :: rest, h => by
    have hitem := h item (List.mem_cons_self item rest)
    have hrest := parseUsersLoop_all_valid rest (fun i hi => h i (List.mem_cons_of_mem _ hi))
    match hb : breakAtColon [] item.data with
    | none => simp [validUserToken, hb] at hitem
    | some (l, r) =>
      have hsplit : splitN2Colon item = [String.mk l, String.mk r] := by
        simp [splitN2Colon, hb]
      have hcs : colonSplit item = (String.mk l, String.mk r) := by
        simp [colonSplit, hb]
      simp only [validUserToken, hb, hcs, Option.isSome_some, Bool.true_and,
        Bool.and_eq_true, Bool.not_eq_true', beq_eq_false_iff_ne, ne_eq] at hitem
      simp [parseUsersLoop, hsplit, hitem.1, hitem.2, hrest, userOfToken, hcs]

theorem parseUsersLoop_isOk_false_iff : ∀ items : List String,
    ((parseUsersLoop items).isOk = false ↔ ∃ item ∈ items, validUserToken item = false)
  | [] => by simp [parseUsersLoop]
  | item :: rest => by
    have ih := parseUsersLoop_isOk_false_iff rest
    match hb : breakAtColon [] item.data with
    | none =>
      have hsplit : splitN2Colon item = [item] := by simp [splitN2Colon, hb]
      have hv : validUserToken item = false := by simp [validUserToken, hb]
      have heq : parseUsersLoop (item :: rest) =
          Except.error ("invalid user specification " ++ goQuote item) := by
        simp [parseUsersLoop, hsplit]
      rw [heq]
      exact iff_of_true rfl ⟨item, List.mem_cons_self item rest, hv⟩
    | some (l, r) =>
      have hsplit : splitN2Colon item = [String.mk l, String.mk r] := by
        simp [splitN2Colon, hb]
      have hcs : colonSplit item = (String.mk l, String.mk r) := by
        simp [colonSplit, hb]
      by_cases hl : goTrimSpace (String.mk l) = ""
      · have hv : validUserToken item = false := by
          simp [validUserToken, hb, hcs, hl]
        have heq : parseUsersLoop (item :: rest) =
            Except.error ("user identifier is empty in " ++ goQuote item) := by
          simp [parseUsersLoop, hsplit, hl]
        rw [heq]
        exact iff_of_true rfl ⟨item, List.mem_cons_self item rest, hv⟩
      · by_cases hr : goTrimSpace (String.mk r) = ""
        · have hv : validUserToken item = false := by
            simp [validUserToken, hb, hcs, hr]
          have heq : parseUsersLoop (item :: rest) =
              Except.error ("user name is empty in " ++ goQuote item) := by
            simp [parseUsersLoop, hsplit, hl, hr]
          rw [heq]
          exact iff_of_true rfl ⟨item, List.mem_cons_self item rest, hv⟩
        · have hv : validUserToken item = true := by
            simp [validUserToken, hb, hcs, hl, hr]
          cases hres : parseUsersLoop rest with
          | error e =>
            have heq : parseUsersLoop (item :: rest) = Except.error e := by
              simp [parseUsersLoop, hsplit, hl, hr, hres]
            rw [heq]
            refine iff_of_true rfl ?_
            obtain ⟨i, hi, hbad⟩ := ih.mp (by rw [hres]; rfl)
            exact ⟨i, List.mem_cons_of_mem _ hi, hbad⟩
          | ok us =>
            have heq : parseUsersLoop (item :: rest) =
                Except.ok (userOfToken item :: us) := by
              simp [parseUsersLoop, hsplit, hl, hr, hres, userOfToken, hcs]
            rw [heq]
            constructor
            · intro hfalse
              exact absurd hfalse (by simp)
            · rintro ⟨i, hi, hbad⟩
              rcases List.mem_cons.mp hi with rfl | hi2
              · rw [hv] at hbad
                cases hbad
              · have h2 := ih.mpr ⟨i, hi2, hbad⟩
                rw [hres] at h2
                exact absurd h2 (by simp)

/-- Claim C4: on a valid user list (non-empty token list, every token
with a colon and non-empty trimmed sides), `parseUsers` returns one
record per token in input order, `Login` the trimmed identifier part,
`Name` the trimmed name part, and `ID` the parsed integer exactly when
the identifier parses as a base-10 integer (`ID` absent otherwise,
`Except.toOption` of the `strconv.Atoi` model). -/
theorem claim_C4_parseUsers_valid (raw : String)
    (h1 : splitList raw ≠ [])
    (h2 : ∀ item ∈ splitList raw, validUserToken item = true) :
    parseUsers raw = Except.ok ((splitList raw).map userOfToken) ∧
    ∀ item ∈ splitList raw,
      (userOfToken item).Login = goTrimSpace (colonSplit item).1 ∧
      (userOfToken item).Name = goTrimSpace (colonSplit item).2 ∧
      (userOfToken item).ID = (atoiE ((userOfToken item).Login)).toOption := by
  constructor
  · have hne : (splitList raw).isEmpty = false := by
      cases hsl : splitList raw with
      | nil => exact absurd hsl h1
      | cons a l => rfl
    rw [parseUsers_eq raw hne]
    exact parseUsersLoop_all_valid (splitList raw) h2
  · intro item _
    exact ⟨rfl, rfl, rfl⟩

/-- Witness for `claim_C4_parseUsers_valid` at a concrete two-token
list, one numeric identifier and one login. -/
theorem claim_C4_witness :
    parseUsers ("123:Alice; user2:User Two") =
      Except.ok [{ ID := some 123, Login := "123", Name := "Alice" },
                 { ID := none, Login := "user2", Name := "User Two" }] :=
  ((claim_C4_parseUsers_valid ("123:Alice; user2:User Two") (by decide) (by decide)).1).trans
    (by decide)

/-- Claim C5 (counterexample): the claim requires each accepted token to
contain exactly one colon, but `parseUsers` accepts `"a:b:c"`, a token
with two colons (it splits at the first colon only). -/
theorem claim_C5_counterexample :
    countCharOcc ':' ("a:b:c") = 2 ∧
    parseUsers ("a:b:c") = Except.ok [{ ID := none, Login := "a", Name := "b:c" }] := by
  refine ⟨by decide, by decide⟩

/-- Claim C5 (amended): `parseUsers` fails exactly when the token list
is empty after splitting, or some token lacks a colon, or the side
before the first colon or the side after it is empty after trimming —
each accepted token must contain at least one colon and is split at the
first one, with both sides non-empty (the name side may itself contain
further colons). -/
theorem claim_C5_parseUsers_failure_iff (raw : String) :
    (parseUsers raw).isOk = false ↔
      splitList raw = [] ∨ ∃ item ∈ splitList raw, validUserToken item = false := by
  by_cases hempty : splitList raw = []
  · rw [parseUsers_empty raw hempty]
    exact iff_of_true rfl (Or.inl hempty)
  · have hne : (splitList raw).isEmpty = false := by
      cases hsl : splitList raw with
      | nil => exact absurd hsl hempty
      | cons a l => rfl
    rw [parseUsers_eq raw hne, parseUsersLoop_isOk_false_iff]
    simp [hempty]

/-- Witness for `claim_C5_parseUsers_failure_iff`: a colon-less token
makes `parseUsers` fail. -/
theorem claim_C5_witness : (parseUsers ("x")).isOk = false :=
  (claim_C5_parseUsers_failure_iff ("x")).mpr (Or.inr ⟨"x", by decide, by decide⟩)

/-! ### Lemmas about `parseContestIDs` and `splitList` -/

theorem parseContestIDs_eq (raw : String) (hne : (splitList raw).isEmpty = false) :
    parseContestIDs raw = parseContestIDsLoop (splitList raw) := by
  show (if (splitList raw).isEmpty = true then Except.error ("contest list is empty")
      else parseContestIDsLoop (splitList raw)) = parseContestIDsLoop (splitList raw)
  rw [hne]
  simp

theorem parseContestIDs_empty (raw : String) (hempty : splitList raw = []) :
    parseContestIDs raw = Except.error ("contest list is empty") := by
  show (if (splitList raw).isEmpty = true then Except.error ("contest list is empty")
      else parseContestIDsLoop (splitList raw)) = Except.error ("contest list is empty")
  rw [hempty]
  rfl

theorem parseContestIDsLoop_ok_iff : ∀ (items : List String) (ids : List Int),
    (parseContestIDsLoop items = Except.ok ids ↔ atoiAll items = some ids)
  | [], ids => by simp [parseContestIDsLoop, atoiAll]
  | item :: rest, ids => by
    have ih := parseContestIDsLoop_ok_iff rest
    cases ha : atoiE item with
    | error e =>
      have heq : parseContestIDsLoop (item :: rest) =
          Except.error ("invalid contest ID " ++ goQuote item ++ ": " ++ e) := by
        simp [parseContestIDsLoop, ha]
      rw [heq]
      simp [atoiAll, ha, Except.toOption]
    | ok id =>
      cases hres : parseContestIDsLoop rest with
      | error e =>
        have heq : parseContestIDsLoop (item :: rest) = Except.error e := by
          simp [parseContestIDsLoop, ha, hres]
        rw [heq]
        have hres2 : atoiAll rest = none := by
          cases hm : atoiAll rest with
          | none => rfl
          | some ids2 =>
            have h2 := (ih ids2).mpr hm
            rw [hres] at h2
            cases h2
        simp [atoiAll, ha, Except.toOption, hres2]
      | ok ids2 =>
        have heq : parseContestIDsLoop (item :: rest) = Except.ok (id :: ids2) := by
          simp [parseContestIDsLoop, ha, hres]
        rw [heq]
        have hm : atoiAll rest = some ids2 := (ih ids2).mp hres
        simp [atoiAll, ha, Except.toOption, hm]

theorem parseContestIDsLoop_first_bad : ∀ (items : List String) (t : String),
    firstBadToken items = some t →
    parseContestIDsLoop items =
      Except.error ("invalid contest ID " ++ goQuote t ++ ": " ++ atoiErrMsg t)
  | [], t => by simp [firstBadToken]
  | item :: rest, t => by
    intro hfind
    cases ha : atoiE item with
    | error e =>
      rw [firstBadToken, ha] at hfind
      simp only [exceptIsOk_error, Bool.false_eq_true, if_false, Option.some.injEq] at hfind
      subst hfind
      simp [parseContestIDsLoop, ha, atoiErrMsg]
    | ok id =>
      rw [firstBadToken, ha] at hfind
      simp only [exceptIsOk_ok, if_true] at hfind
      have ih := parseContestIDsLoop_first_bad rest t hfind
      simp [parseContestIDsLoop, ha, ih]

theorem fieldsFuncAux_no_sep : ∀ (cs cur : List Char),
    (∀ c ∈ cs, isSepChar c = false) →
    fieldsFuncAux cur cs = if cur.isEmpty && cs.isEmpty then [] else [cur.reverse ++ cs]
  | [], cur, _ => by cases cur <;> simp [fieldsFuncAux]
  | c :: cs, cur, h => by
    have hc : isSepChar c = false := h c (by simp)
    have ih := fieldsFuncAux_no_sep cs (c :: cur) (fun x hx => h x (by simp [hx]))
    simp [fieldsFuncAux, hc, ih]

theorem splitList_no_sep (raw : String) (h : ∀ c ∈ raw.data, isSepChar c = false) :
    splitList raw = if goTrimSpace raw = "" then [] else [goTrimSpace raw] := by
  obtain ⟨cs⟩ := raw
  unfold splitList
  rw [fieldsFuncAux_no_sep cs [] h]
  cases cs with
  | nil => simp [goTrimSpace]
  | cons a l =>
    simp only [List.isEmpty_cons, Bool.and_false, Bool.false_eq_true, if_false,
      List.reverse_nil, List.nil_append, List.map_cons, List.map_nil,
      List.filter_cons, List.filter_nil]
    by_cases ht : goTrimSpace (String.mk (a :: l)) = ""
    · simp [ht]
    · simp [ht]

/-- Claim C6: `parseContestIDs` splits only on `';'` and `','` (a string
without those characters is a single token, whatever white space it
contains), trims and drops empty tokens; it returns the parsed integers
in input order exactly when every token parses as a base-10 integer,
fails with the fixed empty-list error when no tokens remain, and fails
with an error naming (Go-quoting) the first offending token when some
token does not parse. -/
theorem claim_C6_parseContestIDs (raw : String) :
    (∀ ids, parseContestIDs raw = Except.ok ids ↔
      splitList raw ≠ [] ∧ atoiAll (splitList raw) = some ids) ∧
    (splitList raw = [] → parseContestIDs raw = Except.error ("contest list is empty")) ∧
    (∀ t, firstBadToken (splitList raw) = some t →
      parseContestIDs raw =
        Except.error ("invalid contest ID " ++ goQuote t ++ ": " ++ atoiErrMsg t)) ∧
    ((∀ c ∈ raw.data, isSepChar c = false) →
      splitList raw = if goTrimSpace raw = "" then [] else [goTrimSpace raw]) := by
  refine ⟨?_, parseContestIDs_empty raw, ?_, splitList_no_sep raw⟩
  · intro ids
    by_cases hempty : splitList raw = []
    · rw [parseContestIDs_empty raw hempty]
      simp [hempty]
    · have hne : (splitList raw).isEmpty = false := by
        cases hsl : splitList raw with
        | nil => exact absurd hsl hempty
        | cons a l => rfl
      rw [parseContestIDs_eq raw hne, parseContestIDsLoop_ok_iff]
      simp [hempty]
  · intro t hfind
    have hne : (splitList raw).isEmpty = false := by
      cases hsl : splitList raw with
      | nil => rw [hsl] at hfind; simp [firstBadToken] at hfind
      | cons a l => rfl
    rw [parseContestIDs_eq raw hne]
    exact parseContestIDsLoop_first_bad (splitList raw) t hfind

/-- Witness for `claim_C6_parseContestIDs`: an all-integer list parses
in order; a token with an interior tab is a single (non-integer) token
and the error names it. -/
theorem claim_C6_witness :
    parseContestIDs ("1, 2; 3") = Except.ok [1, 2, 3] ∧
    parseContestIDs ("101\t202") =
      Except.error ("invalid contest ID \"101\\t202\": strconv.Atoi: parsing \"101\\t202\": invalid syntax") := by
  constructor
  · exact ((claim_C6_parseContestIDs ("1, 2; 3")).1 [1, 2, 3]).mpr (by decide)
  · exact ((claim_C6_parseContestIDs ("101\t202")).2.2.1 ("101\t202") (by decide)).trans
      (by decide)

/-! ### Claim C9: the form body -/

/-- Claim C9: for every contest ID and user, the form built by
`changeRegistration` contains `other_user_id` exactly when `user.ID` is
present (with its decimal value), `other_user_login` exactly when
`Login` is non-empty, and always `contest_id`; the `register` action
additionally sets `op=upsert`, `status=ok`, `name=<user.Name>` and
`ignore=true`; the `unregister` action sets `op=delete` and
`ignore=true` and neither `status` nor `name`; every other field is
absent. -/
theorem claim_C9_form_fields (contestID : Int) (user : userSpec) :
    (∃ f, changeRegistrationForm contestID user actionRegister = Except.ok f ∧
      formGet f ("other_user_id") = user.ID.map goItoa ∧
      formGet f ("other_user_login") =
        (if user.Login = "" then none else some user.Login) ∧
      formGet f ("contest_id") = some (goItoa contestID) ∧
      formGet f ("op") = some ("upsert") ∧
      formGet f ("status") = some ("ok") ∧
      formGet f ("name") = some user.Name ∧
      formGet f ("ignore") = some ("true") ∧
      ∀ k, ¬k ∈ ["other_user_id", "other_user_login", "contest_id",
          "op", "status", "name", "ignore"] → formGet f k = none) ∧
    (∃ f, changeRegistrationForm contestID user actionUnregister = Except.ok f ∧
      formGet f ("other_user_id") = user.ID.map goItoa ∧
      formGet f ("other_user_login") =
        (if user.Login = "" then none else some user.Login) ∧
      formGet f ("contest_id") = some (goItoa contestID) ∧
      formGet f ("op") = some ("delete") ∧
      formGet f ("ignore") = some ("true") ∧
      formGet f ("status") = none ∧
      formGet f ("name") = none ∧
      ∀ k, ¬k ∈ ["other_user_id", "other_user_login", "contest_id",
          "op", "ignore"] → formGet f k = none) := by
  constructor
  · refine ⟨_, rfl, ?_, ?_, ?_, ?_, ?_, ?_, ?_, ?_⟩
    · cases hID : user.ID <;>
        by_cases hL : user.Login = "" <;>
        simp [formGet, formSet, emptyForm, hID, hL]
    · cases hID : user.ID <;>
        by_cases hL : user.Login = "" <;>
        simp [formGet, formSet, emptyForm, hID, hL]
    · cases hID : user.ID <;>
        by_cases hL : user.Login = "" <;>
        simp [formGet, formSet, emptyForm, hID, hL]
    · cases hID : user.ID <;>
        by_cases hL : user.Login = "" <;>
        simp [formGet, formSet, emptyForm, hID, hL]
    · cases hID : user.ID <;>
        by_cases hL : user.Login = "" <;>
        simp [formGet, formSet, emptyForm, hID, hL]
    · cases hID : user.ID <;>
        by_cases hL : user.Login = "" <;>
        simp [formGet, formSet, emptyForm, hID, hL]
    · cases hID : user.ID <;>
        by_cases hL : user.Login = "" <;>
        simp [formGet, formSet, emptyForm, hID, hL]
    · intro k hk
      simp only [List.mem_cons, List.not_mem_nil, or_false, not_or] at hk
      obtain ⟨n1, n2, n3, n4, n5, n6, n7⟩ := hk
      cases hID : user.ID <;>
        by_cases hL : user.Login = "" <;>
        simp [formGet, formSet, emptyForm, hID, hL, Ne.symm n1, Ne.symm n2,
          Ne.symm n3, Ne.symm n4, Ne.symm n5, Ne.symm n6, Ne.symm n7]
  · refine ⟨_, rfl, ?_, ?_, ?_, ?_, ?_, ?_, ?_, ?_⟩
    · cases hID : user.ID <;>
        by_cases hL : user.Login = "" <;>
        simp [formGet, formSet, emptyForm, hID, hL]
    · cases hID : user.ID <;>
        by_cases hL : user.Login = "" <;>
        simp [formGet, formSet, emptyForm, hID, hL]
    · cases hID : user.ID <;>
        by_cases hL : user.Login = "" <;>
        simp [formGet, formSet, emptyForm, hID, hL]
    · cases hID : user.ID <;>
        by_cases hL : user.Login = "" <;>
        simp [formGet, formSet, emptyForm, hID, hL]
    · cases hID : user.ID <;>
        by_cases hL : user.Login = "" <;>
        simp [formGet, formSet, emptyForm, hID, hL]
    · cases hID : user.ID <;>
        by_cases hL : user.Login = "" <;>
        simp [formGet, formSet, emptyForm, hID, hL]
    · cases hID : user.ID <;>
        by_cases hL : user.Login = "" <;>
        simp [formGet, formSet, emptyForm, hID, hL]
    · intro k hk
      simp only [List.mem_cons, List.not_mem_nil, or_false, not_or] at hk
      obtain ⟨n1, n2, n3, n4, n5⟩ := hk
      cases hID : user.ID <;>
        by_cases hL : user.Login = "" <;>
        simp [formGet, formSet, emptyForm, hID, hL, Ne.symm n1, Ne.symm n2,
          Ne.symm n3, Ne.symm n4, Ne.symm n5]

/-- Witness for `claim_C9_form_fields`: the register-action form for a
concrete user builds successfully. -/
theorem claim_C9_witness :
    (changeRegistrationForm 7 { ID := some 3, Login := "alice", Name := "Alice A" }
      actionRegister).isOk = true := by
  obtain ⟨f, hf, -⟩ :=
    (claim_C9_form_fields 7 { ID := some 3, Login := "alice", Name := "Alice A" }).1
  rw [hf]
  rfl

/-! ### Claim C10: `loadConfig` -/

theorem configFieldsLoop_isOk : ∀ (fields : List (String × Jval)) (acc : config),
    (configFieldsLoop acc fields).isOk =
      fields.all (fun kv => eqFold kv.1 ("token") && jvalIsStrOrNull kv.2)
  | [], acc => rfl
  | (k, v) :: rest, acc => by
    by_cases he : eqFold k ("token") = true
    · cases v <;>
        simp [configFieldsLoop, he, jvalIsStrOrNull, configFieldsLoop_isOk rest]
    · have he' : eqFold k ("token") = false := by
        cases h : eqFold k ("token")
        · rfl
        · exact absurd h he
      simp [configFieldsLoop, he', jvalIsStrOrNull]

theorem configFieldsLoop_ok_of_schema : ∀ (fields : List (String × Jval)) (acc : config),
    fields.all (fun kv => eqFold kv.1 ("token") && jvalIsStrOrNull kv.2) = true →
    configFieldsLoop acc fields = Except.ok { Token := configTokenFold acc.Token fields }
  | [], acc, _ => by simp [configFieldsLoop, configTokenFold]
  | (k, v) :: rest, acc, h => by
    simp only [List.all_cons, Bool.and_eq_true] at h
    obtain ⟨⟨he, hv⟩, hrest⟩ := h
    cases v with
    | jstr s =>
      have ih := configFieldsLoop_ok_of_schema rest { Token := s } hrest
      simp [configFieldsLoop, he, ih, configTokenFold, List.foldl_cons]
    | null =>
      have ih := configFieldsLoop_ok_of_schema rest acc hrest
      simp [configFieldsLoop, he, ih, configTokenFold, List.foldl_cons]
    | jbool b => simp [jvalIsStrOrNull] at hv
    | jnum lit => simp [jvalIsStrOrNull] at hv
    | jarr es => simp [jvalIsStrOrNull] at hv
    | jobj ms => simp [jvalIsStrOrNull] at hv

theorem unmarshalConfigVal_isOk (v : Jval) :
    (unmarshalConfigVal v).isOk = configSchemaOkVal v := by
  cases v <;> simp [unmarshalConfigVal, configSchemaOkVal, configFieldsLoop_isOk]

theorem unmarshalConfigVal_ok_of_schema (v : Jval) (h : configSchemaOkVal v = true) :
    unmarshalConfigVal v = Except.ok { Token := configTokenOfVal v } := by
  cases v with
  | null => rfl
  | jobj fields =>
    exact configFieldsLoop_ok_of_schema fields { Token := "" } h
  | jbool b => simp [configSchemaOkVal] at h
  | jnum lit => simp [configSchemaOkVal] at h
  | jstr s => simp [configSchemaOkVal] at h
  | jarr es => simp [configSchemaOkVal] at h

theorem decodeConfigContent_isOk_false_iff (path content : String) :
    (decodeConfigContent path content).isOk = false ↔
      (skipJsonWs content.data).isEmpty = true ∨
      (jsonParse1 content).isOk = false ∨
      ∃ v rest, jsonParse1 content = Except.ok (v, rest) ∧
        (configSchemaOkVal v = false ∨ (skipJsonWs rest.data).isEmpty = false) := by
  by_cases hws : (skipJsonWs content.data).isEmpty = true
  · have heq : decodeConfigContent path content = Except.error ("config file is empty") := by
      simp [decodeConfigContent, hws]
    rw [heq]
    exact iff_of_true rfl (Or.inl hws)
  · cases hp : jsonParse1 content with
    | error e =>
      have heq : decodeConfigContent path content =
          Except.error ("decoding config " ++ goQuote path ++ ": " ++ e) := by
        simp [decodeConfigContent, hws, hp]
      rw [heq]
      exact iff_of_true rfl (Or.inr (Or.inl rfl))
    | ok pr =>
      obtain ⟨v, rest⟩ := pr
      by_cases hok : configSchemaOkVal v = true
      · have hu := unmarshalConfigVal_ok_of_schema v hok
        by_cases hrest : (skipJsonWs rest.data).isEmpty = true
        · have heq : decodeConfigContent path content =
              Except.ok { Token := configTokenOfVal v } := by
            simp [decodeConfigContent, hws, hp, hu, hrest]
          rw [heq]
          refine iff_of_false (by simp) ?_
          rintro (h | h | ⟨v2, rest2, hp2, h⟩)
          · exact hws h
          · exact absurd h (by simp)
          · injection hp2 with hp3
            rw [Prod.mk.injEq] at hp3
            obtain ⟨hv2, hrest2⟩ := hp3
            subst hv2
            subst hrest2
            rcases h with h | h
            · rw [hok] at h
              cases h
            · rw [hrest] at h
              cases h
        · have hrest' : (skipJsonWs rest.data).isEmpty = false := by
            cases h : (skipJsonWs rest.data).isEmpty
            · rfl
            · exact absurd h hrest
          have hfail : (decodeConfigContent path content).isOk = false := by
            cases hp2 : jsonParse1 rest with
            | error e2 => simp [decodeConfigContent, hws, hp, hu, hrest', hp2]
            | ok pr2 =>
              obtain ⟨v2, rest2⟩ := pr2
              cases he2 : unmarshalEmptyStructVal v2 <;>
                simp [decodeConfigContent, hws, hp, hu, hrest', hp2, he2]
          rw [hfail]
          exact iff_of_true rfl
            (Or.inr (Or.inr ⟨v, rest, rfl, Or.inr hrest'⟩))
      · have hok' : configSchemaOkVal v = false := by
          cases h : configSchemaOkVal v
          · rfl
          · exact absurd h hok
        have hu : (unmarshalConfigVal v).isOk = false := by
          rw [unmarshalConfigVal_isOk, hok']
        cases he : unmarshalConfigVal v with
        | ok cfg => rw [he] at hu; cases hu
        | error e2 =>
          have heq : decodeConfigContent path content =
              Except.error ("decoding config " ++ goQuote path ++ ": " ++ e2) := by
            simp [decodeConfigContent, hws, hp, he]
          rw [heq]
          exact iff_of_true rfl
            (Or.inr (Or.inr ⟨v, rest, rfl, Or.inl hok'⟩))

theorem decodeConfigContent_ok (path content : String) (v : Jval) (rest : String)
    (hws : (skipJsonWs content.data).isEmpty = false)
    (hp : jsonParse1 content = Except.ok (v, rest))
    (hok : configSchemaOkVal v = true)
    (hrest : (skipJsonWs rest.data).isEmpty = true) :
    decodeConfigContent path content = Except.ok { Token := configTokenOfVal v } := by
  simp [decodeConfigContent, hws, hp, unmarshalConfigVal_ok_of_schema v hok, hrest]

/-- Claim C10 (amended): `loadConfig` with an empty path returns the
empty config; with a non-empty path it fails exactly when the file is
missing/unreadable, the content is white space only (empty), the
content does not start with one well-formed JSON value, that value does
not satisfy the `config` schema under `DisallowUnknownFields` (it must
be `null` or an object with only string-or-null `token` members — e.g.
a numeric `token` also fails, which the original claim omitted), or
material follows the first value; otherwise it returns the decoded
token. Moreover, whenever config loading fails, the `main` pipeline
attempts no HTTP request at all. -/
theorem claim_C10_loadConfig (path : String) (fs : String → Option String) :
    loadConfig ("") fs = Except.ok { Token := "" } ∧
    (path ≠ "" →
      ((loadConfig path fs).isOk = false ↔
        fs path = none ∨
        ∃ content, fs path = some content ∧
          ((skipJsonWs content.data).isEmpty = true ∨
           (jsonParse1 content).isOk = false ∨
           ∃ v rest, jsonParse1 content = Except.ok (v, rest) ∧
             (configSchemaOkVal v = false ∨
              (skipJsonWs rest.data).isEmpty = false)))) ∧
    (∀ content v rest, path ≠ "" → fs path = some content →
      (skipJsonWs content.data).isEmpty = false →
      jsonParse1 content = Except.ok (v, rest) →
      configSchemaOkVal v = true →
      (skipJsonWs rest.data).isEmpty = true →
      loadConfig path fs = Except.ok { Token := configTokenOfVal v }) ∧
    (∀ usersArg contestsArg actionArg tokenArg configArg baseURLArg call,
      (loadConfig (goTrimSpace configArg) fs).isOk = false →
      (mainRun usersArg contestsArg actionArg tokenArg configArg baseURLArg fs
        call).attempted = []) := by
  refine ⟨rfl, ?_, ?_, ?_⟩
  · intro hpath
    have hstep : loadConfig path fs =
        (match fs path with
         | none => Except.error ("opening config file " ++ goQuote path ++
             ": open " ++ path ++ ": no such file or directory")
         | some content => decodeConfigContent path content) := by
      simp [loadConfig, hpath]
    rw [hstep]
    cases hf : fs path with
    | none => exact iff_of_true rfl (Or.inl rfl)
    | some content =>
      rw [decodeConfigContent_isOk_false_iff]
      constructor
      · intro h
        exact Or.inr ⟨content, rfl, h⟩
      · rintro (h | ⟨content2, hc2, h⟩)
        · cases h
        · injection hc2 with hc2
          subst hc2
          exact h
  · intro content v rest hpath hf hws hp hok hrest
    have hstep : loadConfig path fs = decodeConfigContent path content := by
      simp [loadConfig, hpath, hf]
    rw [hstep]
    exact decodeConfigContent_ok path content v rest hws hp hok hrest
  · intro u c a t cf b call hfail
    unfold mainRun
    by_cases hu : u = ""
    · simp [hu]
    · rw [if_neg hu]
      by_cases hc : c = ""
      · simp [hc]
      · rw [if_neg hc]
        cases parseAction a with
        | error e => rfl
        | ok action =>
          cases parseUsers u with
          | error e => rfl
          | ok users =>
            cases parseContestIDs c with
            | error e => rfl
            | ok contests =>
              cases hl : loadConfig (goTrimSpace cf) fs with
              | error e => rfl
              | ok cfg =>
                rw [hl] at hfail
                cases hfail

/-- Claim C10 (counterexample): `{"token": 123}` is a non-empty, valid,
single JSON object whose only member is named `token` — none of the
claim's failure conditions — yet `loadConfig` fails on it (the `token`
value must be a string). -/
theorem claim_C10_counterexample :
    (loadConfig ("cfg.json")
      (fun p => if p = "cfg.json" then some ("\x7b\"token\": 123\x7d") else none)).isOk
      = false ∧
    (skipJsonWs ("\x7b\"token\": 123\x7d").data).isEmpty = false ∧
    firstJsonObjKeys ("\x7b\"token\": 123\x7d") = some ["token"] := by
  refine ⟨by decide, by decide, by decide⟩

/-- Witness for `claim_C10_loadConfig` at a concrete readable file
holding `{"token": "abc"}`. -/
theorem claim_C10_witness :
    loadConfig ("c.json")
      (fun p => if p = "c.json" then some ("\x7b\"token\": \"abc\"\x7d") else none) =
      Except.ok { Token := "abc" } :=
  (claim_C10_loadConfig ("c.json")
      (fun p => if p = "c.json" then some ("\x7b\"token\": \"abc\"\x7d") else none)).2.2.1
    ("\x7b\"token\": \"abc\"\x7d") (Jval.jobj [("token", Jval.jstr ("abc"))]) ("")
    (by decide) (by decide) (by decide) (by rfl) (by decide) (by decide)

end EjudgeUsers


